import Mathlib

/-!
Shallow embedding of `src/manager/dataset_manager.py` (the MaRGE dataset
manager).  The repository consists of a single routine,
`createMirroredDataset(session_info, scan_info, primary_save_path)`, which
derives a destination session path from the inputs, scaffolds a fixed
directory layout, copies a bounded set of files from the primary save path
into it, writes a `metadata.json` record and returns the session path, or
returns `None` when any internal step raises.

The embedding models Python dict values (`PyValue`), the filesystem as a
finite collection of directories and files (`FS`), and the library
functions the routine uses (`os.path.join`, `os.path.splitext`,
`os.makedirs`, `os.listdir`, `shutil.copy`, `datetime.strptime`/`strftime`,
`json.dump`) closely enough to settle the specification claims.  Exceptions
are modelled with `Except`; the routine's top-level `try/except` becomes the
final `match` in `createMirroredDataset`.
-/

/-- A Python value as it can appear in the `session_info` / `scan_info`
dictionaries: a string, an integer, or some other object (for instance a
numpy array) that the JSON serializer cannot render, carried together with
its `str(...)` representation. -/
inductive PyValue where
  | pstr : String → PyValue
  | pint : Int → PyValue
  | pobj : String → PyValue
deriving DecidableEq

/-- Python `str(v)` for the values modelled by `PyValue`. -/
def pyStr : PyValue → String
  | .pstr s => s
  | .pint n => toString n
  | .pobj r => r

/-- Python truthiness of a `dict.get` result, as used by
`if not timestamp_str:` — `None` and the empty string (and `0`) are falsey. -/
def pyTruthy : Option PyValue → Bool
  | none => false
  | some (.pstr s) => !(s == "")
  | some (.pint n) => !(n == 0)
  | some (.pobj _) => true

/-- A Python dict with string keys, as an association list (keys unique in
any dict built by Python; insertion order preserved, as `dict` does). -/
abbrev PyDict := List (String × PyValue)

/-- `d.get(k)` — `none` models Python `None` for an absent key. -/
def pyGet (d : PyDict) (k : String) : Option PyValue :=
  (d.find? (fun kv => kv.1 == k)).map (·.2)

/-- Split a character list at every occurrence of `c`; mirrors Python
`str.split(c)` for a single-character separator (`"".split(c) == [""]`). -/
def splitOnChar (c : Char) : List Char → List (List Char)
  | [] => [[]]
  | x :: xs =>
    if x = c then [] :: splitOnChar c xs
    else
      match splitOnChar c xs with
      | [] => [[x]]
      | h :: t => (x :: h) :: t

/-- String version of `splitOnChar`. -/
def strSplitOnChar (c : Char) (s : String) : List String :=
  (splitOnChar c s.data).map String.mk

/-- The call `subject_id.replace(" ", "_")` from the source: with a
single-character pattern, Python `str.replace` maps every space to an
underscore. -/
def replaceSpaces (s : String) : String :=
  String.mk (s.data.map (fun ch => if ch = ' ' then '_' else ch))

/-- Python `s.startswith(pre)`. -/
def strStartsWith (s pre : String) : Bool := pre.data.isPrefixOf s.data

/-- Python `s.endswith(post)`. -/
def strEndsWith (s post : String) : Bool := post.data.reverse.isPrefixOf s.data.reverse

/-- `posixpath.join` for two components: absolute second component wins;
otherwise insert a separator unless one is already there. -/
def pjoin (a b : String) : String :=
  if strStartsWith b "/" then b
  else if a = "" then b
  else if strEndsWith a "/" then a ++ b
  else a ++ "/" ++ b

/-- Index of the last occurrence of `c` in `l`, as an `Int`, `-1` when
absent — Python `str.rfind`. -/
def rfindIdx (l : List Char) (c : Char) : Int :=
  match l.reverse.findIdx? (· == c) with
  | none => -1
  | some i => (l.length : Int) - 1 - (i : Int)

/-- `posixpath.splitext`: split at the last dot provided it lies after the
last separator and some character of the basename before it is not a dot
(so that names made only of leading dots keep their dots). -/
def splitext (p : String) : String × String :=
  let l := p.data
  let sepIdx := rfindIdx l '/'
  let dotIdx := rfindIdx l '.'
  if decide (sepIdx < dotIdx) &&
      (List.range l.length).any (fun i =>
        decide (sepIdx < (i : Int)) && decide ((i : Int) < dotIdx) &&
          !(l.getD i ' ' == '.')) then
    (String.mk (l.take dotIdx.toNat), String.mk (l.drop dotIdx.toNat))
  else (p, "")

/-- The instant produced by `datetime.strptime`; fields as in Python's
`datetime` object. -/
structure DateTime where
  year : Nat
  month : Nat
  day : Nat
  hour : Nat
  minute : Nat
  second : Nat
  microsecond : Nat
deriving DecidableEq

/-- Gregorian leap-year rule used by `datetime`. -/
def isLeapYear (y : Nat) : Bool :=
  y % 4 == 0 && (!(y % 100 == 0) || y % 400 == 0)

/-- Days in a month, as validated by the `datetime` constructor. -/
def daysInMonth (y m : Nat) : Nat :=
  if m = 2 then (if isLeapYear y then 29 else 28)
  else if m = 4 ∨ m = 6 ∨ m = 9 ∨ m = 11 then 30
  else 31

/-- Numeric value of a run of ASCII digits (`int(s)`). -/
def digitsToNat (l : List Char) : Nat :=
  l.foldl (fun n c => n * 10 + (c.toNat - 48)) 0

/-- A non-empty run of ASCII digits. -/
def allDigits (l : List Char) : Bool := !l.isEmpty && l.all (·.isDigit)

/-- `datetime.strptime(s, "%Y.%m.%d.%H.%M.%S.%f")`, `none` on `ValueError`.
The format's regex demands exactly seven dot-separated digit groups: a
four-digit year, at most two digits for month (1–12), day (1–31), hour
(0–23), minute (0–59) and second (0–61 at the regex, leap seconds), and one
to six digits of fraction (right-padded to microseconds).  The `datetime`
constructor then rejects year 0, a day beyond the month's length, and
seconds above 59. -/
def strptime6 (s : String) : Option DateTime :=
  match splitOnChar '.' s.data with
  | [ys, ms, ds, hs, ns, ss, fs] =>
    if allDigits ys = true ∧ ys.length = 4 ∧
        allDigits ms = true ∧ ms.length ≤ 2 ∧ 1 ≤ digitsToNat ms ∧ digitsToNat ms ≤ 12 ∧
        allDigits ds = true ∧ ds.length ≤ 2 ∧ 1 ≤ digitsToNat ds ∧ digitsToNat ds ≤ 31 ∧
        allDigits hs = true ∧ hs.length ≤ 2 ∧ digitsToNat hs ≤ 23 ∧
        allDigits ns = true ∧ ns.length ≤ 2 ∧ digitsToNat ns ≤ 59 ∧
        allDigits ss = true ∧ ss.length ≤ 2 ∧ digitsToNat ss ≤ 61 ∧
        allDigits fs = true ∧ fs.length ≤ 6 then
      if 1 ≤ digitsToNat ys ∧ digitsToNat ds ≤ daysInMonth (digitsToNat ys) (digitsToNat ms) ∧
          digitsToNat ss ≤ 59 then
        some ⟨digitsToNat ys, digitsToNat ms, digitsToNat ds, digitsToNat hs,
              digitsToNat ns, digitsToNat ss, digitsToNat fs * 10 ^ (6 - fs.length)⟩
      else none
    else none
  | _ => none

/-- Zero-padded decimal rendering, as `strftime` field output. -/
def padZero (n width : Nat) : String :=
  let s := toString n
  String.mk (List.replicate (width - s.length) '0' ++ s.data)

/-- `dt.strftime("%Y%m%dT%H%M%S")` — the compact session timestamp;
fractional seconds are dropped. -/
def strftimeCompact (dt : DateTime) : String :=
  padZero dt.year 4 ++ padZero dt.month 2 ++ padZero dt.day 2 ++ "T" ++
    padZero dt.hour 2 ++ padZero dt.minute 2 ++ padZero dt.second 2

/-- Content of a file in the modelled filesystem: an opaque blob, or the
structured metadata record written by `json.dump` (its two top-level
fields). -/
inductive FileData where
  | blob : String → FileData
  | metadataFile : PyDict → List (String × String) → FileData
deriving DecidableEq

/-- The filesystem: a finite set of directory paths and of files (path
paired with content). -/
structure FS where
  dirs : List String
  files : List (String × FileData)
deriving DecidableEq

/-- A directory exists at `p`. -/
def isDir (fs : FS) (p : String) : Bool := fs.dirs.contains p

/-- A file exists at `p`. -/
def isFile (fs : FS) (p : String) : Bool := fs.files.any (fun kv => kv.1 == p)

/-- `os.path.exists(p)`: a file or a directory. -/
def pathExists (fs : FS) (p : String) : Bool := isFile fs p || isDir fs p

/-- Content of the file at `p`, when a file is there. -/
def fileContent (fs : FS) (p : String) : Option FileData :=
  (fs.files.find? (fun kv => kv.1 == p)).map (·.2)

/-- Create or overwrite the file at `p`. -/
def setFile (files : List (String × FileData)) (p : String) (d : FileData) :
    List (String × FileData) :=
  files.filter (fun kv => !(kv.1 == p)) ++ [(p, d)]

/-- Cumulative path components from `cur` downwards. -/
def prefixesFrom (cur : String) : List String → List String
  | [] => []
  | part :: rest => (cur ++ "/" ++ part) :: prefixesFrom (cur ++ "/" ++ part) rest

/-- Every ancestor path (including `p` itself) that `os.makedirs(p)` walks
through and creates when missing. -/
def pathPrefixes (p : String) : List String :=
  match strSplitOnChar '/' p with
  | [] => []
  | first :: rest => if first = "" then prefixesFrom "" rest else first :: prefixesFrom first rest

/-- Insert a directory path if not already present (no duplicates). -/
def insertDir (ds : List String) (q : String) : List String :=
  if ds.contains q then ds else ds ++ [q]

/-- `os.makedirs(p, exist_ok=True)`: creates every missing ancestor
directory; pre-existing directories are not an error, but a *file* sitting
at any ancestor path raises. -/
def makedirs (fs : FS) (p : String) : Except Unit FS :=
  if (pathPrefixes p).any (fun q => isFile fs q) then .error ()
  else .ok { fs with dirs := (pathPrefixes p).foldl insertDir fs.dirs }

/-- `os.path.basename`. -/
def basename (p : String) : String := (strSplitOnChar '/' p).getLastD ""

/-- The effective destination of `shutil.copy`: a directory at `dst`
redirects the copy into that directory under the source's basename. -/

def realDest (fs : FS) (src dst : String) : String :=
  if isDir fs dst then pjoin dst (basename src) else dst

/-- `shutil.copy(src, dst)`: error when no file is at `src` (it is a
directory, given the caller checked existence) or when source and
destination are the same file. -/
def shutilCopy (fs : FS) (src dst : String) : Except Unit FS :=
  match fileContent fs src with
  | none => .error ()
  | some data =>
    if realDest fs src dst = src then .error ()
    else .ok { fs with files := setFile fs.files (realDest fs src dst) data }

/-- `_try_copy(src_path, dest_path)` from the source: copy only when the
source path exists, otherwise skip (logged, not fatal).  An error keeps the
filesystem reached so far. -/
def tryCopy (fs : FS) (src dst : String) : Except FS FS :=
  if pathExists fs src then
    match shutilCopy fs src dst with
    | .error _ => .error fs
    | .ok fs1 => .ok fs1
  else .ok fs

/-- The hard-coded dataset root from the source. -/
def dataset_root : String := "/home/bryant/Desktop/mri_dataset"

/-- The five fixed subdirectories of a session directory. -/
def subfolders : List String := ["mat", "csv", "dcm", "raw", "seq"]

/-- The `file_map` literal: extension, source subdirectory, destination
subdirectory (in dict insertion order). -/
def file_map : List (String × String × String) :=
  [(".mat", "mat", "mat"), (".csv", "csv", "csv"),
   (".dcm", "dcm", "dcm"), (".h5", "ismrmrd", "raw")]

/-- Lines 33–34: `subject_label` and `subject_folder`.  A non-string
`subject_id` has no `.replace` method (`AttributeError`). -/
def subjectLabelStep (session_info : PyDict) : Except Unit String :=
  match pyGet session_info "subject_id" with
  | none => .ok ("sub-" ++ replaceSpaces "UnknownSubject")
  | some (.pstr s) => .ok ("sub-" ++ replaceSpaces s)
  | some _ => .error ()

/-- Lines 38–44: fetch `name_string`, raise when falsey, parse it with
`strptime` (a non-string raises `TypeError` there), and format the session
label. -/
def sessionLabelStep (scan_info : PyDict) : Except Unit String :=
  if pyTruthy (pyGet scan_info "name_string") then
    match pyGet scan_info "name_string" with
    | some (.pstr ts) =>
      match strptime6 ts with
      | some dt => .ok ("ses-" ++ strftimeCompact dt)
      | none => .error ()
    | _ => .error ()
  else .error ()

/-- Run `makedirs` on each path in turn, keeping the filesystem reached
before a failing call. -/
def makedirsList : FS → List String → Except FS FS
  | fs, [] => .ok fs
  | fs, p :: rest =>
    match makedirs fs p with
    | .error _ => .error fs
    | .ok fs1 => makedirsList fs1 rest

/-- Lines 52–54: create the session directory's five subdirectories. -/
def scaffoldStep (fs : FS) (dsp : String) : Except FS FS :=
  makedirsList fs (subfolders.map (fun sub => pjoin dsp sub))

/-- Lines 59–61: extension-stripped stem of `fileName` (default `''`);
raise when the stem is empty; a non-string raises in `splitext`. -/
def baseFilenameStep (scan_info : PyDict) : Except Unit String :=
  match (pyGet scan_info "fileName").getD (.pstr "") with
  | .pstr s =>
    if (splitext s).1 = "" then .error () else .ok (splitext s).1
  | _ => .error ()

/-- Source path of one `file_map` entry: `primary_save_path/<src_subdir>/<base><ext>`. -/
def primarySrc (psp base : String) (m : String × String × String) : String :=
  pjoin (pjoin psp m.2.1) (base ++ m.1)

/-- Destination path of one `file_map` entry: `<dsp>/<dest_subdir>/<base><ext>`. -/
def primaryDst (dsp base : String) (m : String × String × String) : String :=
  pjoin (pjoin dsp m.2.2) (base ++ m.1)

/-- Lines 82–85: the loop over `file_map`, one `_try_copy` per entry. -/
def copyPrimaryGo (psp dsp base : String) : FS → List (String × String × String) → Except FS FS
  | fs, [] => .ok fs
  | fs, m :: rest =>
    match tryCopy fs (primarySrc psp base m) (primaryDst dsp base m) with
    | .error fs1 => .error fs1
    | .ok fs1 => copyPrimaryGo psp dsp base fs1 rest

/-- Strip `dir ++ "/"` from the front of a path. -/
def dropPrefixChars : List Char → List Char → Option (List Char)
  | [], l => some l
  | _ :: _, [] => none
  | a :: as, b :: bs => if a = b then dropPrefixChars as bs else none

/-- The entry name when `p` is a direct child of directory `dir`. -/
def childName (dir p : String) : Option String :=
  match dropPrefixChars (dir.data ++ ['/']) p.data with
  | none => none
  | some rest =>
    if !rest.isEmpty && !rest.contains '/' then some (String.mk rest) else none

/-- `os.listdir(dir)`: the names of the direct children (files and
directories) of `dir`. -/
def listdir (fs : FS) (dir : String) : List String :=
  ((fs.files.map (·.1) ++ fs.dirs).filterMap (fun p => childName dir p)).dedup

/-- The line-92 condition:
`seq_file.startswith(base_filename) and seq_file.endswith(".seq")`. -/
def matchSeq (base name : String) : Bool :=
  strStartsWith name base && strEndsWith name ".seq"

/-- Lines 91–95: the loop over the `seq` directory listing; entries whose
name starts with the base identifier and ends with `.seq` are `_try_copy`d. -/
def copySeqGo (pseq dseq base : String) : FS → List String → Except FS FS
  | fs, [] => .ok fs
  | fs, name :: rest =>
    if matchSeq base name then
      match tryCopy fs (pjoin pseq name) (pjoin dseq name) with
      | .error fs1 => .error fs1
      | .ok fs1 => copySeqGo pseq dseq base fs1 rest
    else copySeqGo pseq dseq base fs rest

/-- Lines 88–95: when `primary_save_path/seq` exists, list it and copy the
matching entries (`os.listdir` on a file, not a directory, raises). -/
def copySeqStep (fs : FS) (psp dsp base : String) : Except FS FS :=
  if pathExists fs (pjoin psp "seq") then
    if isDir fs (pjoin psp "seq") then
      copySeqGo (pjoin psp "seq") (pjoin dsp "seq") base fs (listdir fs (pjoin psp "seq"))
    else .error fs
  else .ok fs

/-- `json` can render strings and ints; the opaque objects (numpy arrays)
are the non-serializable ones. -/
def pyJsonSerializable : PyValue → Bool
  | .pobj _ => false
  | _ => true

/-- Line 102: `{key: str(value) for key, value in scan_info.items()}`. -/
def scanParams (scan_info : PyDict) : List (String × String) :=
  scan_info.map (fun kv => (kv.1, pyStr kv.2))

/-- Lines 100–107: `open(metadata_path, "w")` truncates/creates the file
even when `json.dump` then raises on a non-serializable `session_info`
value; on success the metadata record has exactly the two top-level fields
`session_info` (unmodified) and `scan_parameters` (string-coerced). -/
def writeMetadataStep (fs : FS) (dsp : String) (session_info scan_info : PyDict) :
    Except FS FS :=
  if isDir fs (pjoin dsp "metadata.json") then .error fs
  else if session_info.all (fun kv => pyJsonSerializable kv.2) then
    .ok { fs with
            files := setFile
              (setFile fs.files (pjoin dsp "metadata.json") (.blob ""))
              (pjoin dsp "metadata.json")
              (.metadataFile session_info (scanParams scan_info)) }
  else .error { fs with files := setFile fs.files (pjoin dsp "metadata.json") (.blob "") }

/-- The body of the `try:` block, lines 26–110: the sequential steps.  An
error carries the filesystem as it stands at the raise point (no rollback);
success carries the session path and the final filesystem. -/
def pipeline (session_info scan_info : PyDict) (psp : String) (fs : FS) :
    Except FS (String × FS) :=
  match subjectLabelStep session_info with
  | .error _ => .error fs
  | .ok subject_folder =>
    match sessionLabelStep scan_info with
    | .error _ => .error fs
    | .ok session_label =>
      match scaffoldStep fs (pjoin (pjoin dataset_root subject_folder) session_label) with
      | .error fs1 => .error fs1
      | .ok fs1 =>
        match baseFilenameStep scan_info with
        | .error _ => .error fs1
        | .ok base =>
          match copyPrimaryGo psp (pjoin (pjoin dataset_root subject_folder) session_label)
              base fs1 file_map with
          | .error fs2 => .error fs2
          | .ok fs2 =>
            match copySeqStep fs2 psp
                (pjoin (pjoin dataset_root subject_folder) session_label) base with
            | .error fs3 => .error fs3
            | .ok fs3 =>
              match writeMetadataStep fs3
                  (pjoin (pjoin dataset_root subject_folder) session_label)
                  session_info scan_info with
              | .error fs4 => .error fs4
              | .ok fs4 =>
                .ok (pjoin (pjoin dataset_root subject_folder) session_label, fs4)

/-- Outcome of a call: the returned value (`none` models Python `None`) and
the filesystem afterwards. -/
structure RunResult where
  ret : Option String
  fs : FS
deriving DecidableEq

/-- `createMirroredDataset`: run the steps; the top-level
`except Exception` turns any raise into a `None` return, keeping whatever
the filesystem holds at that point. -/
def createMirroredDataset (session_info scan_info : PyDict) (psp : String) (fs : FS) :
    RunResult :=
  match pipeline session_info scan_info psp fs with
  | .error fs1 => ⟨none, fs1⟩
  | .ok (p, fs1) => ⟨some p, fs1⟩

/-- Following the spec's words (for the refinement claim about the returned
path): join the fixed dataset root with `sub-` followed by `subject_id`
with every space replaced by an underscore (or the placeholder
`UnknownSubject` when absent), and `ses-` followed by the compact
timestamp parsed from `name_string`. -/
def spec_subjectLabel (session_info : PyDict) : Option String :=
  match pyGet session_info "subject_id" with
  | none => some "UnknownSubject"
  | some (.pstr s) => some (replaceSpaces s)
  | some _ => none

/-- Following the spec's words, continued: the full session path formula. -/
def spec_sessionPath (session_info scan_info : PyDict) : Option String :=
  match spec_subjectLabel session_info with
  | none => none
  | some sub =>
    match pyGet scan_info "name_string" with
    | some (.pstr ts) =>
      match strptime6 ts with
      | some dt =>
        some (pjoin (pjoin dataset_root ("sub-" ++ sub)) ("ses-" ++ strftimeCompact dt))
      | none => none
    | _ => none

deriving instance DecidableEq for Except

/-- Concrete `session_info` used by witness theorems. -/
def wSession : PyDict := [("subject_id", .pstr "Jane Doe")]

/-- Concrete `scan_info` used by witness theorems. -/
def wScan : PyDict :=
  [("name_string", .pstr "2024.03.15.09.30.00.123456"), ("fileName", .pstr "X1.mat")]

/-- A `session_info` holding a value the JSON serializer cannot render. -/
def wBadSession : PyDict :=
  [("subject_id", .pstr "Jane Doe"), ("array", .pobj "[1 2 3]")]

/-- The empty filesystem. -/
def wEmptyFS : FS := ⟨[], []⟩

/-- A primary save area holding only the `.mat` source file. -/
def wAcqFS : FS := ⟨["/tmp/acq", "/tmp/acq/mat"], [("/tmp/acq/mat/X1.mat", .blob "m")]⟩

/-- A primary save area holding `.mat` and `.csv` source files only. -/
def wCopyFS : FS :=
  ⟨["/tmp/acq", "/tmp/acq/mat", "/tmp/acq/csv"],
   [("/tmp/acq/mat/X1.mat", .blob "m"), ("/tmp/acq/csv/X1.csv", .blob "c")]⟩

/-- A primary save area whose `seq` directory holds `X1.seq`, `X1_cal.seq`
and `Y2.seq` (the spec's multi-match example). -/
def wSeqFS : FS :=
  ⟨["/tmp/acq", "/tmp/acq/seq"],
   [("/tmp/acq/seq/X1.seq", .blob "a"), ("/tmp/acq/seq/X1_cal.seq", .blob "b"),
    ("/tmp/acq/seq/Y2.seq", .blob "c")]⟩

/-- The session path derived from `wSession` and `wScan`. -/
def wSessionPath : String :=
  "/home/bryant/Desktop/mri_dataset/sub-Jane_Doe/ses-20240315T093000"

/-- The directories scaffolded by a run on `wSession`/`wScan` over an empty
filesystem. -/
def wScaffoldDirs : List String :=
  ["/home", "/home/bryant", "/home/bryant/Desktop", "/home/bryant/Desktop/mri_dataset",
   "/home/bryant/Desktop/mri_dataset/sub-Jane_Doe", wSessionPath,
   wSessionPath ++ "/mat", wSessionPath ++ "/csv", wSessionPath ++ "/dcm",
   wSessionPath ++ "/raw", wSessionPath ++ "/seq"]

/-- The filesystem after the primary-copy stage on `wCopyFS`. -/
def wCopyOut : FS :=
  ⟨["/tmp/acq", "/tmp/acq/mat", "/tmp/acq/csv"],
   [("/tmp/acq/mat/X1.mat", .blob "m"), ("/tmp/acq/csv/X1.csv", .blob "c"),
    ("/data/ses/mat/X1.mat", .blob "m"), ("/data/ses/csv/X1.csv", .blob "c")]⟩

/-- The filesystem after the sequence-copy stage on `wSeqFS`. -/
def wSeqOut : FS :=
  ⟨["/tmp/acq", "/tmp/acq/seq"],
   [("/tmp/acq/seq/X1.seq", .blob "a"), ("/tmp/acq/seq/X1_cal.seq", .blob "b"),
    ("/tmp/acq/seq/Y2.seq", .blob "c"),
    ("/data/ses/seq/X1.seq", .blob "a"), ("/data/ses/seq/X1_cal.seq", .blob "b")]⟩

/-! ## Basic lemmas about the filesystem model -/

theorem find?_append {α : Type} (l1 l2 : List α) (q : α → Bool) :
    (l1 ++ l2).find? q =
      (match l1.find? q with
       | some x => some x
       | none => l2.find? q) := by
  induction l1 with
  | nil => rfl
  | cons x rest ih =>
    rw [List.cons_append, List.find?_cons, List.find?_cons]
    cases hq : q x with
    | true => simp
    | false => simp only [hq]; exact ih

theorem filter_ne_find?_none (l : List (String × FileData)) (p : String) :
    (l.filter (fun kv => !(kv.1 == p))).find? (fun kv => kv.1 == p) = none := by
  rw [List.find?_eq_none]
  intro kv hkv
  have h2 := List.of_mem_filter hkv
  simp only [Bool.not_eq_true'] at h2
  simp [h2]

theorem find?_filter_ne (l : List (String × FileData)) (p q : String) (h : q ≠ p) :
    (l.filter (fun kv => !(kv.1 == p))).find? (fun kv => kv.1 == q)
      = l.find? (fun kv => kv.1 == q) := by
  induction l with
  | nil => rfl
  | cons kv rest ih =>
    by_cases hp : kv.1 = p
    · have hc : (!(kv.1 == p)) = false := by simp [hp]
      have hkq : (kv.1 == q) = false := by simp [hp, Ne.symm h]
      simp only [List.filter_cons, hc, Bool.false_eq_true, if_false]
      rw [ih, List.find?_cons]
      simp [hkq]
    · have hc : (!(kv.1 == p)) = true := by simp [hp]
      simp only [List.filter_cons, hc, if_true]
      rw [List.find?_cons, List.find?_cons]
      cases hq : (kv.1 == q) with
      | true => rfl
      | false => simp only [hq]; exact ih

theorem fileContent_setFile_self (fs : FS) (ds : List String) (p : String) (d : FileData) :
    fileContent ⟨ds, setFile fs.files p d⟩ p = some d := by
  unfold fileContent setFile
  rw [find?_append, filter_ne_find?_none]
  simp [List.find?_cons]

theorem fileContent_setFile_ne (fs : FS) (ds : List String) (p q : String) (d : FileData)
    (h : q ≠ p) : fileContent ⟨ds, setFile fs.files p d⟩ q = fileContent fs q := by
  unfold fileContent setFile
  rw [find?_append, find?_filter_ne fs.files p q h]
  cases hf : fs.files.find? (fun kv => kv.1 == q) with
  | some x => rfl
  | none =>
    have : ([(p, d)].find? fun kv => kv.1 == q) = none := by
      simp [List.find?_cons, Ne.symm h]
    simp [this]

theorem any_key_eq_isSome_find? (l : List (String × FileData)) (p : String) :
    (l.any (fun kv => kv.1 == p)) = (l.find? (fun kv => kv.1 == p)).isSome := by
  induction l with
  | nil => rfl
  | cons kv rest ih =>
    rw [List.any_cons, List.find?_cons]
    cases hq : (kv.1 == p) with
    | true => simp
    | false => simp only [hq, Bool.false_or]; exact ih

theorem isFile_eq_isSome_fileContent (fs : FS) (p : String) :
    isFile fs p = (fileContent fs p).isSome := by
  unfold isFile fileContent
  rw [any_key_eq_isSome_find?]
  cases fs.files.find? (fun kv => kv.1 == p) <;> rfl

theorem isFile_setFile_self (fs : FS) (ds : List String) (p : String) (d : FileData) :
    isFile ⟨ds, setFile fs.files p d⟩ p = true := by
  rw [isFile_eq_isSome_fileContent, fileContent_setFile_self]
  rfl

theorem isFile_setFile_ne (fs : FS) (ds : List String) (p q : String) (d : FileData)
    (h : q ≠ p) : isFile ⟨ds, setFile fs.files p d⟩ q = isFile fs q := by
  rw [isFile_eq_isSome_fileContent, isFile_eq_isSome_fileContent,
    fileContent_setFile_ne fs ds p q d h]

theorem isFile_true_fileContent (fs : FS) (p : String) (h : isFile fs p = true) :
    ∃ d, fileContent fs p = some d := by
  rw [isFile_eq_isSome_fileContent] at h
  cases hf : fileContent fs p with
  | some d => exact ⟨d, rfl⟩
  | none => rw [hf] at h; cases h

/-! ## The behaviour of a single `_try_copy` call -/

theorem tryCopy_spec (fs : FS) (src dst : String)
    (hs : isDir fs src = false) (hd : isDir fs dst = false) (hne : dst ≠ src) :
    ∃ fs1, tryCopy fs src dst = .ok fs1
      ∧ fs1.dirs = fs.dirs
      ∧ isFile fs1 dst = (isFile fs src || isFile fs dst)
      ∧ (isFile fs src = true → fileContent fs1 dst = fileContent fs src)
      ∧ (∀ q, q ≠ dst → fileContent fs1 q = fileContent fs q)
      ∧ (∀ q, q ≠ dst → isFile fs1 q = isFile fs q) := by
  by_cases hf : isFile fs src = true
  · obtain ⟨d, hdc⟩ := isFile_true_fileContent fs src hf
    refine ⟨{ fs with files := setFile fs.files dst d }, ?_, rfl, ?_, ?_, ?_, ?_⟩
    · unfold tryCopy pathExists shutilCopy realDest
      rw [hf, hdc, hd]
      simp [hne]
    · rw [isFile_setFile_self fs fs.dirs dst d, hf]
      rfl
    · intro _
      rw [fileContent_setFile_self fs fs.dirs dst d, hdc]
    · intro q hq
      exact fileContent_setFile_ne fs fs.dirs dst q d hq
    · intro q hq
      exact isFile_setFile_ne fs fs.dirs dst q d hq
  · have hf' : isFile fs src = false := by
      cases hv : isFile fs src with
      | true => exact absurd hv hf
      | false => rfl
    refine ⟨fs, ?_, rfl, ?_, ?_, fun q _ => rfl, fun q _ => rfl⟩
    · unfold tryCopy pathExists
      rw [hf', hs]
      rfl
    · rw [hf']
      rfl
    · intro hc
      exact absurd hc hf

/-! ## Inversion lemmas for the pipeline steps -/

theorem subjectLabelStep_ok_inv (si : PyDict) (l : String)
    (h : subjectLabelStep si = .ok l) :
    (pyGet si "subject_id" = none ∧ l = "sub-" ++ replaceSpaces "UnknownSubject")
  ∨ ∃ s, pyGet si "subject_id" = some (.pstr s) ∧ l = "sub-" ++ replaceSpaces s := by
  unfold subjectLabelStep at h
  cases hv : pyGet si "subject_id" with
  | none =>
    rw [hv] at h
    cases h
    exact Or.inl ⟨rfl, rfl⟩
  | some v =>
    rw [hv] at h
    cases v with
    | pstr s =>
      cases h
      exact Or.inr ⟨s, rfl, rfl⟩
    | pint n => cases h
    | pobj r => cases h

theorem sessionLabelStep_ok_inv (sc : PyDict) (l : String)
    (h : sessionLabelStep sc = .ok l) :
    ∃ ts dt, pyGet sc "name_string" = some (.pstr ts) ∧ strptime6 ts = some dt
      ∧ l = "ses-" ++ strftimeCompact dt := by
  unfold sessionLabelStep at h
  cases hv : pyGet sc "name_string" with
  | none => rw [hv] at h; simp [pyTruthy] at h
  | some v =>
    rw [hv] at h
    cases v with
    | pstr ts =>
      by_cases hts : ts = ""
      · subst hts
        simp [pyTruthy] at h
      · have htr : pyTruthy (some (.pstr ts)) = true := by simp [pyTruthy, hts]
        rw [htr] at h
        simp only [if_true] at h
        cases hp : strptime6 ts with
        | none => rw [hp] at h; cases h
        | some dt =>
          rw [hp] at h
          cases h
          exact ⟨ts, dt, rfl, hp, rfl⟩
    | pint n =>
      by_cases hn : n = 0
      · subst hn; simp [pyTruthy] at h
      · have htr : pyTruthy (some (.pint n)) = true := by simp [pyTruthy, hn]
        rw [htr] at h
        simp only [if_true] at h
        cases h
    | pobj r =>
      have htr : pyTruthy (some (.pobj r)) = true := rfl
      rw [htr] at h
      simp only [if_true] at h
      cases h

theorem baseFilenameStep_error_of (sc : PyDict)
    (h : pyGet sc "fileName" = none
       ∨ ∃ s, pyGet sc "fileName" = some (.pstr s) ∧ (splitext s).1 = "") :
    baseFilenameStep sc = .error () := by
  unfold baseFilenameStep
  rcases h with h | ⟨s, hs, hstem⟩
  · rw [h]
    have : (splitext "").1 = "" := by decide
    simp [this]
  · rw [hs]
    simp [hstem]

theorem pipeline_ok_inv (si sc : PyDict) (psp : String) (fs : FS) (p : String) (fsR : FS)
    (h : pipeline si sc psp fs = .ok (p, fsR)) :
    ∃ subl sesl fs1 base fs2 fs3,
      subjectLabelStep si = .ok subl ∧ sessionLabelStep sc = .ok sesl ∧
      p = pjoin (pjoin dataset_root subl) sesl ∧
      scaffoldStep fs p = .ok fs1 ∧ baseFilenameStep sc = .ok base ∧
      copyPrimaryGo psp p base fs1 file_map = .ok fs2 ∧
      copySeqStep fs2 psp p base = .ok fs3 ∧
      writeMetadataStep fs3 p si sc = .ok fsR := by
  unfold pipeline at h
  split at h
  · cases h
  · rename_i subl h1
    split at h
    · cases h
    · rename_i sesl h2
      split at h
      · cases h
      · rename_i fs1 h3
        split at h
        · cases h
        · rename_i base h4
          split at h
          · cases h
          · rename_i fs2 h5
            split at h
            · cases h
            · rename_i fs3 h6
              split at h
              · cases h
              · rename_i fs4 h7
                simp only [Except.ok.injEq, Prod.mk.injEq] at h
                obtain ⟨hp, hf⟩ := h
                subst hf
                subst hp
                exact ⟨subl, sesl, fs1, base, fs2, fs3, h1, h2, rfl, h3, h4, h5, h6, h7⟩

/-! ## Effects of each step on the directory set -/

theorem shutilCopy_ok_dirs (fs fs1 : FS) (src dst : String)
    (h : shutilCopy fs src dst = .ok fs1) : fs1.dirs = fs.dirs := by
  unfold shutilCopy at h
  split at h
  · cases h
  · split at h
    · cases h
    · cases h
      rfl

theorem tryCopy_ok_dirs (fs fs1 : FS) (src dst : String)
    (h : tryCopy fs src dst = .ok fs1) : fs1.dirs = fs.dirs := by
  unfold tryCopy at h
  split at h
  · split at h
    · cases h
    · rename_i fs2 hc
      cases h
      exact shutilCopy_ok_dirs _ _ _ _ hc
  · cases h
    rfl

theorem mem_foldl_insertDir_of_mem (l : List String) : ∀ (ds : List String) (a : String),
    a ∈ ds → a ∈ l.foldl insertDir ds := by
  induction l with
  | nil => intro ds a h; exact h
  | cons q rest ih =>
    intro ds a h
    rw [List.foldl_cons]
    apply ih
    unfold insertDir
    by_cases hq : ds.contains q = true
    · rw [if_pos hq]; exact h
    · rw [if_neg hq]; exact List.mem_append_left _ h

theorem mem_foldl_insertDir_self (l : List String) : ∀ (ds : List String) (a : String),
    a ∈ l → a ∈ l.foldl insertDir ds := by
  induction l with
  | nil => intro ds a h; cases h
  | cons q rest ih =>
    intro ds a h
    rw [List.foldl_cons]
    rcases List.mem_cons.1 h with heq | h2
    · apply mem_foldl_insertDir_of_mem
      unfold insertDir
      by_cases hq : ds.contains q = true
      · rw [if_pos hq, heq]
        simpa using hq
      · rw [if_neg hq]
        exact List.mem_append_right _ (by simp [heq])
    · exact ih _ _ h2

theorem foldl_insertDir_noop (l : List String) (ds : List String)
    (h : ∀ q ∈ l, q ∈ ds) : l.foldl insertDir ds = ds := by
  induction l with
  | nil => rfl
  | cons q rest ih =>
    have hq : ds.contains q = true := by
      simpa using h q (List.mem_cons_self q rest)
    rw [List.foldl_cons]
    have he : insertDir ds q = ds := by unfold insertDir; rw [if_pos hq]
    rw [he]
    exact ih (fun r hr => h r (List.mem_cons_of_mem q hr))

theorem makedirs_ok_inv (fs fs1 : FS) (p : String) (h : makedirs fs p = .ok fs1) :
    fs1.files = fs.files ∧ (∀ q ∈ fs.dirs, q ∈ fs1.dirs)
      ∧ (∀ q ∈ pathPrefixes p, q ∈ fs1.dirs) := by
  unfold makedirs at h
  split at h
  · cases h
  · cases h
    exact ⟨rfl, fun q hq => mem_foldl_insertDir_of_mem _ _ _ hq,
           fun q hq => mem_foldl_insertDir_self _ _ _ hq⟩

theorem makedirs_noop (fs : FS) (p : String)
    (hmem : ∀ q ∈ pathPrefixes p, q ∈ fs.dirs)
    (hnf : ∀ q ∈ pathPrefixes p, isFile fs q = false) :
    makedirs fs p = .ok fs := by
  unfold makedirs
  have hc : ((pathPrefixes p).any (fun q => isFile fs q)) = false := by
    rw [List.any_eq_false]
    intro r hr
    simp [hnf r hr]
  simp only [hc, Bool.false_eq_true, if_false]
  rw [foldl_insertDir_noop _ _ hmem]

theorem makedirsList_ok_inv (l : List String) : ∀ (fs fs1 : FS),
    makedirsList fs l = .ok fs1 →
    fs1.files = fs.files ∧ (∀ q ∈ fs.dirs, q ∈ fs1.dirs)
      ∧ (∀ p ∈ l, ∀ q ∈ pathPrefixes p, q ∈ fs1.dirs) := by
  induction l with
  | nil =>
    intro fs fs1 h
    cases h
    exact ⟨rfl, fun q hq => hq, by simp⟩
  | cons p rest ih =>
    intro fs fs1 h
    unfold makedirsList at h
    split at h
    · cases h
    · rename_i fsa hm
      obtain ⟨hf1, hd1, hp1⟩ := makedirs_ok_inv fs fsa p hm
      obtain ⟨hf2, hd2, hp2⟩ := ih fsa fs1 h
      refine ⟨hf2.trans hf1, fun q hq => hd2 _ (hd1 _ hq), ?_⟩
      intro r hr q hq
      rcases List.mem_cons.1 hr with rfl | hr2
      · exact hd2 _ (hp1 _ hq)
      · exact hp2 _ hr2 _ hq

theorem makedirsList_noop (l : List String) (fs : FS)
    (hmem : ∀ p ∈ l, ∀ q ∈ pathPrefixes p, q ∈ fs.dirs)
    (hnf : ∀ p ∈ l, ∀ q ∈ pathPrefixes p, isFile fs q = false) :
    makedirsList fs l = .ok fs := by
  induction l with
  | nil => rfl
  | cons p rest ih =>
    unfold makedirsList
    rw [makedirs_noop fs p (hmem p (List.mem_cons_self p rest)) (hnf p (List.mem_cons_self p rest))]
    exact ih (fun r hr => hmem r (List.mem_cons_of_mem p hr))
             (fun r hr => hnf r (List.mem_cons_of_mem p hr))

theorem copyPrimaryGo_ok_dirs (psp dsp base : String) :
    ∀ (l : List (String × String × String)) (fs fs1 : FS),
      copyPrimaryGo psp dsp base fs l = .ok fs1 → fs1.dirs = fs.dirs := by
  intro l
  induction l with
  | nil => intro fs fs1 h; cases h; rfl
  | cons m rest ih =>
    intro fs fs1 h
    unfold copyPrimaryGo at h
    split at h
    · cases h
    · rename_i fsa ht
      exact (ih fsa fs1 h).trans (tryCopy_ok_dirs _ _ _ _ ht)

theorem copySeqGo_ok_dirs (pseq dseq base : String) :
    ∀ (L : List String) (fs fs1 : FS),
      copySeqGo pseq dseq base fs L = .ok fs1 → fs1.dirs = fs.dirs := by
  intro L
  induction L with
  | nil => intro fs fs1 h; cases h; rfl
  | cons name rest ih =>
    intro fs fs1 h
    unfold copySeqGo at h
    by_cases hm : matchSeq base name = true
    · rw [if_pos hm] at h
      split at h
      · cases h
      · rename_i fsa ht
        exact (ih fsa fs1 h).trans (tryCopy_ok_dirs _ _ _ _ ht)
    · rw [if_neg hm] at h
      exact ih fs fs1 h

theorem copySeqStep_ok_dirs (fs fs1 : FS) (psp dsp base : String)
    (h : copySeqStep fs psp dsp base = .ok fs1) : fs1.dirs = fs.dirs := by
  unfold copySeqStep at h
  split at h
  · split at h
    · exact copySeqGo_ok_dirs _ _ _ _ _ _ h
    · cases h
  · cases h
    rfl

theorem writeMetadataStep_ok_inv (fs fs1 : FS) (dsp : String) (si sc : PyDict)
    (h : writeMetadataStep fs dsp si sc = .ok fs1) :
    fs1.dirs = fs.dirs
      ∧ fs1 = { fs with
          files := setFile (setFile fs.files (pjoin dsp "metadata.json") (.blob ""))
            (pjoin dsp "metadata.json") (.metadataFile si (scanParams sc)) } := by
  unfold writeMetadataStep at h
  split at h
  · cases h
  · split at h
    · cases h
      exact ⟨rfl, rfl⟩
    · cases h

/-! ## Distinctness of the copy paths via their final characters -/

theorem pjoin_data_suffix (x y : String) :
    ∃ s : List Char, (pjoin x y).data = s ++ y.data := by
  unfold pjoin
  by_cases h1 : strStartsWith y "/" = true
  · rw [if_pos h1]; exact ⟨[], rfl⟩
  · rw [if_neg h1]
    by_cases h2 : x = ""
    · rw [if_pos h2]; exact ⟨[], rfl⟩
    · rw [if_neg h2]
      by_cases h3 : strEndsWith x "/" = true
      · rw [if_pos h3]
        exact ⟨x.data, String.data_append x y⟩
      · rw [if_neg h3]
        refine ⟨x.data ++ ['/'], ?_⟩
        rw [String.data_append, String.data_append]

theorem getLast?_string_ext (s : List Char) (base e : String) (he : e.data ≠ []) :
    (s ++ (base ++ e).data).getLast? = e.data.getLast? := by
  rw [String.data_append, ← List.append_assoc]
  exact List.getLast?_append_of_ne_nil _ he

theorem pjoin_ext_ne (a b base e1 e2 : String)
    (h1 : e1.data ≠ []) (h2 : e2.data ≠ [])
    (hne : e1.data.getLast? ≠ e2.data.getLast?) :
    pjoin a (base ++ e1) ≠ pjoin b (base ++ e2) := by
  intro heq
  obtain ⟨s1, hs1⟩ := pjoin_data_suffix a (base ++ e1)
  obtain ⟨s2, hs2⟩ := pjoin_data_suffix b (base ++ e2)
  have hd : (pjoin a (base ++ e1)).data = (pjoin b (base ++ e2)).data := by rw [heq]
  rw [hs1, hs2] at hd
  have hlast := congrArg List.getLast? hd
  rw [getLast?_string_ext s1 base e1 h1, getLast?_string_ext s2 base e2 h2] at hlast
  exact hne hlast

theorem primary_R (psp dsp base : String) (m m2 : String × String × String)
    (h1 : m.1.data ≠ []) (h2 : m2.1.data ≠ [])
    (hne : m.1.data.getLast? ≠ m2.1.data.getLast?) :
    primaryDst dsp base m ≠ primaryDst dsp base m2
  ∧ primaryDst dsp base m ≠ primarySrc psp base m2
  ∧ primaryDst dsp base m2 ≠ primarySrc psp base m :=
  ⟨pjoin_ext_ne _ _ _ _ _ h1 h2 hne,
   pjoin_ext_ne _ _ _ _ _ h1 h2 hne,
   pjoin_ext_ne _ _ _ _ _ h2 h1 (Ne.symm hne)⟩

theorem file_map_pairwise (psp dsp base : String) :
    file_map.Pairwise (fun m m2 => primaryDst dsp base m ≠ primaryDst dsp base m2
       ∧ primaryDst dsp base m ≠ primarySrc psp base m2
       ∧ primaryDst dsp base m2 ≠ primarySrc psp base m) := by
  unfold file_map
  refine List.Pairwise.cons ?_ (List.Pairwise.cons ?_ (List.Pairwise.cons ?_
    (List.Pairwise.cons ?_ List.Pairwise.nil)))
  · intro m2 hm2
    simp only [List.mem_cons, List.not_mem_nil, or_false] at hm2
    rcases hm2 with rfl | rfl | rfl
    · exact primary_R psp dsp base _ _ (by decide) (by decide) (by decide)
    · exact primary_R psp dsp base _ _ (by decide) (by decide) (by decide)
    · exact primary_R psp dsp base _ _ (by decide) (by decide) (by decide)
  · intro m2 hm2
    simp only [List.mem_cons, List.not_mem_nil, or_false] at hm2
    rcases hm2 with rfl | rfl
    · exact primary_R psp dsp base _ _ (by decide) (by decide) (by decide)
    · exact primary_R psp dsp base _ _ (by decide) (by decide) (by decide)
  · intro m2 hm2
    simp only [List.mem_cons, List.not_mem_nil, or_false] at hm2
    rcases hm2 with rfl
    exact primary_R psp dsp base _ _ (by decide) (by decide) (by decide)
  · intro m2 hm2
    cases hm2

/-! ## The primary copy loop -/

theorem copyPrimaryGo_spec (psp dsp base : String) :
    ∀ (l : List (String × String × String)) (fs : FS),
    (∀ m ∈ l, isDir fs (primarySrc psp base m) = false
       ∧ isDir fs (primaryDst dsp base m) = false
       ∧ primaryDst dsp base m ≠ primarySrc psp base m) →
    l.Pairwise (fun m m2 => primaryDst dsp base m ≠ primaryDst dsp base m2
       ∧ primaryDst dsp base m ≠ primarySrc psp base m2
       ∧ primaryDst dsp base m2 ≠ primarySrc psp base m) →
    ∃ fs1, copyPrimaryGo psp dsp base fs l = .ok fs1
      ∧ (∀ m ∈ l,
           isFile fs1 (primaryDst dsp base m)
             = (isFile fs (primarySrc psp base m) || isFile fs (primaryDst dsp base m))
         ∧ (isFile fs (primarySrc psp base m) = true →
              fileContent fs1 (primaryDst dsp base m) = fileContent fs (primarySrc psp base m)))
      ∧ (∀ q, (∀ m ∈ l, q ≠ primaryDst dsp base m) →
           fileContent fs1 q = fileContent fs q ∧ isFile fs1 q = isFile fs q) := by
  intro l
  induction l with
  | nil =>
    intro fs hsep hpw
    exact ⟨fs, rfl, by simp, fun q _ => ⟨rfl, rfl⟩⟩
  | cons m rest ih =>
    intro fs hsep hpw
    obtain ⟨hs, hd, hne⟩ := hsep m (List.mem_cons_self m rest)
    obtain ⟨fsa, hta, hdira, hIa, hca, hqa, hfa⟩ :=
      tryCopy_spec fs (primarySrc psp base m) (primaryDst dsp base m) hs hd hne
    have hpw' := List.pairwise_cons.1 hpw
    have hsep' : ∀ m2 ∈ rest, isDir fsa (primarySrc psp base m2) = false
        ∧ isDir fsa (primaryDst dsp base m2) = false
        ∧ primaryDst dsp base m2 ≠ primarySrc psp base m2 := by
      intro m2 hm2
      obtain ⟨a1, a2, a3⟩ := hsep m2 (List.mem_cons_of_mem m hm2)
      constructor
      · unfold isDir; rw [hdira]; exact a1
      · constructor
        · unfold isDir; rw [hdira]; exact a2
        · exact a3
    obtain ⟨fs1, hok, hmain, hrest⟩ := ih fsa hsep' hpw'.2
    refine ⟨fs1, ?_, ?_, ?_⟩
    · unfold copyPrimaryGo
      rw [hta]
      exact hok
    · intro m2 hm2
      rcases List.mem_cons.1 hm2 with heq | hm2'
      · subst heq
        constructor
        · have hstep := (hrest (primaryDst dsp base m2)
            (fun m3 hm3 => (hpw'.1 m3 hm3).1)).2
          rw [hstep, hIa]
        · intro hsf
          have hstep := (hrest (primaryDst dsp base m2)
            (fun m3 hm3 => (hpw'.1 m3 hm3).1)).1
          rw [hstep]
          exact hca hsf
      · obtain ⟨hI2, hc2⟩ := hmain m2 hm2'
        have hsrc_ne : primarySrc psp base m2 ≠ primaryDst dsp base m :=
          Ne.symm (hpw'.1 m2 hm2').2.1
        have hdst_ne : primaryDst dsp base m2 ≠ primaryDst dsp base m :=
          Ne.symm (hpw'.1 m2 hm2').1
        constructor
        · rw [hI2, hfa _ hsrc_ne, hfa _ hdst_ne]
        · intro hsf
          have hsa : isFile fsa (primarySrc psp base m2) = true := by
            rw [hfa _ hsrc_ne]; exact hsf
          rw [hc2 hsa, hqa _ hsrc_ne]
    · intro q hq
      have h1 := hrest q (fun m3 hm3 => hq m3 (List.mem_cons_of_mem m hm3))
      have hqd : q ≠ primaryDst dsp base m := hq m (List.mem_cons_self m rest)
      exact ⟨(h1.1).trans (hqa q hqd), (h1.2).trans (hfa q hqd)⟩

/-! ## The sequence copy loop -/

theorem copySeqGo_spec (pseq dseq base : String) :
    ∀ (L : List String) (fs : FS),
    (∀ n ∈ L, matchSeq base n = true → isDir fs (pjoin pseq n) = false
       ∧ isDir fs (pjoin dseq n) = false ∧ pjoin dseq n ≠ pjoin pseq n) →
    L.Pairwise (fun n n2 => matchSeq base n = true → matchSeq base n2 = true →
       pjoin dseq n ≠ pjoin dseq n2 ∧ pjoin dseq n ≠ pjoin pseq n2
         ∧ pjoin dseq n2 ≠ pjoin pseq n) →
    ∃ fs1, copySeqGo pseq dseq base fs L = .ok fs1
      ∧ (∀ n ∈ L, matchSeq base n = true →
           isFile fs1 (pjoin dseq n) = (isFile fs (pjoin pseq n) || isFile fs (pjoin dseq n))
         ∧ (isFile fs (pjoin pseq n) = true →
              fileContent fs1 (pjoin dseq n) = fileContent fs (pjoin pseq n)))
      ∧ (∀ q, (∀ n ∈ L, matchSeq base n = true → q ≠ pjoin dseq n) →
           fileContent fs1 q = fileContent fs q ∧ isFile fs1 q = isFile fs q) := by
  intro L
  induction L with
  | nil =>
    intro fs hsep hpw
    exact ⟨fs, rfl, by simp, fun q _ => ⟨rfl, rfl⟩⟩
  | cons name rest ih =>
    intro fs hsep hpw
    have hpw' := List.pairwise_cons.1 hpw
    by_cases hm : matchSeq base name = true
    · obtain ⟨hs, hd, hne⟩ := hsep name (List.mem_cons_self name rest) hm
      obtain ⟨fsa, hta, hdira, hIa, hca, hqa, hfa⟩ :=
        tryCopy_spec fs (pjoin pseq name) (pjoin dseq name) hs hd hne
      have hsep' : ∀ n2 ∈ rest, matchSeq base n2 = true →
          isDir fsa (pjoin pseq n2) = false
          ∧ isDir fsa (pjoin dseq n2) = false ∧ pjoin dseq n2 ≠ pjoin pseq n2 := by
        intro n2 hn2 hm2
        obtain ⟨a1, a2, a3⟩ := hsep n2 (List.mem_cons_of_mem name hn2) hm2
        constructor
        · unfold isDir; rw [hdira]; exact a1
        · constructor
          · unfold isDir; rw [hdira]; exact a2
          · exact a3
      obtain ⟨fs1, hok, hmain, hrest⟩ := ih fsa hsep' hpw'.2
      refine ⟨fs1, ?_, ?_, ?_⟩
      · unfold copySeqGo
        rw [if_pos hm, hta]
        exact hok
      · intro n2 hn2 hm2
        rcases List.mem_cons.1 hn2 with heq | hn2'
        · subst heq
          constructor
          · have hstep := (hrest (pjoin dseq n2)
              (fun n3 hn3 hm3 => (hpw'.1 n3 hn3 hm2 hm3).1)).2
            rw [hstep, hIa]
          · intro hsf
            have hstep := (hrest (pjoin dseq n2)
              (fun n3 hn3 hm3 => (hpw'.1 n3 hn3 hm2 hm3).1)).1
            rw [hstep]
            exact hca hsf
        · obtain ⟨hI2, hc2⟩ := hmain n2 hn2' hm2
          have hsrc_ne : pjoin pseq n2 ≠ pjoin dseq name :=
            Ne.symm (hpw'.1 n2 hn2' hm hm2).2.1
          have hdst_ne : pjoin dseq n2 ≠ pjoin dseq name :=
            Ne.symm (hpw'.1 n2 hn2' hm hm2).1
          constructor
          · rw [hI2, hfa _ hsrc_ne, hfa _ hdst_ne]
          · intro hsf
            have hsa : isFile fsa (pjoin pseq n2) = true := by
              rw [hfa _ hsrc_ne]; exact hsf
            rw [hc2 hsa, hqa _ hsrc_ne]
      · intro q hq
        have h1 := hrest q (fun n3 hn3 hm3 => hq n3 (List.mem_cons_of_mem name hn3) hm3)
        have hqd : q ≠ pjoin dseq name := hq name (List.mem_cons_self name rest) hm
        exact ⟨(h1.1).trans (hqa q hqd), (h1.2).trans (hfa q hqd)⟩
    · have hsep' : ∀ n2 ∈ rest, matchSeq base n2 = true →
          isDir fs (pjoin pseq n2) = false
          ∧ isDir fs (pjoin dseq n2) = false ∧ pjoin dseq n2 ≠ pjoin pseq n2 :=
        fun n2 hn2 hm2 => hsep n2 (List.mem_cons_of_mem name hn2) hm2
      obtain ⟨fs1, hok, hmain, hrest⟩ := ih fs hsep' hpw'.2
      refine ⟨fs1, ?_, ?_, ?_⟩
      · unfold copySeqGo
        rw [if_neg hm]
        exact hok
      · intro n2 hn2 hm2
        rcases List.mem_cons.1 hn2 with heq | hn2'
        · subst heq
          exact absurd hm2 hm
        · exact hmain n2 hn2' hm2
      · intro q hq
        exact hrest q (fun n3 hn3 hm3 => hq n3 (List.mem_cons_of_mem name hn3) hm3)

/-! ## Computation rules for the pipeline -/

theorem sessionLabelStep_eval (sc : PyDict) (ts : String)
    (h : pyGet sc "name_string" = some (.pstr ts)) (hts : ts ≠ "") :
    sessionLabelStep sc =
      (match strptime6 ts with
       | some dt => .ok ("ses-" ++ strftimeCompact dt)
       | none => .error ()) := by
  unfold sessionLabelStep
  rw [h]
  have htr : pyTruthy (some (.pstr ts)) = true := by simp [pyTruthy, hts]
  rw [htr]
  rfl

theorem pipeline_eq_of_labels (si sc : PyDict) (psp : String) (fs : FS)
    (subl sesl : String) (fs1 : FS)
    (h1 : subjectLabelStep si = .ok subl) (h2 : sessionLabelStep sc = .ok sesl)
    (h3 : scaffoldStep fs (pjoin (pjoin dataset_root subl) sesl) = .ok fs1) :
    pipeline si sc psp fs =
      (match baseFilenameStep sc with
       | .error _ => .error fs1
       | .ok base =>
         match copyPrimaryGo psp (pjoin (pjoin dataset_root subl) sesl) base fs1 file_map with
         | .error fs2 => .error fs2
         | .ok fs2 =>
           match copySeqStep fs2 psp (pjoin (pjoin dataset_root subl) sesl) base with
           | .error fs3 => .error fs3
           | .ok fs3 =>
             match writeMetadataStep fs3 (pjoin (pjoin dataset_root subl) sesl) si sc with
             | .error fs4 => .error fs4
             | .ok fs4 => .ok (pjoin (pjoin dataset_root subl) sesl, fs4)) := by
  unfold pipeline
  split
  · rename_i e heq
    rw [h1] at heq; cases heq
  · rename_i subl2 heq
    rw [h1] at heq
    injection heq with heq2
    subst heq2
    split
    · rename_i e heq
      rw [h2] at heq; cases heq
    · rename_i sesl2 heq
      rw [h2] at heq
      injection heq with heq2
      subst heq2
      split
      · rename_i fsx heq
        rw [h3] at heq; cases heq
      · rename_i fs1x heq
        rw [h3] at heq
        injection heq with heq2
        subst heq2
        rfl

theorem pipeline_eq_of_copies (si sc : PyDict) (psp : String) (fs : FS)
    (subl sesl : String) (fs1 : FS) (base : String) (fs2 fs3 : FS)
    (h1 : subjectLabelStep si = .ok subl) (h2 : sessionLabelStep sc = .ok sesl)
    (h3 : scaffoldStep fs (pjoin (pjoin dataset_root subl) sesl) = .ok fs1)
    (h4 : baseFilenameStep sc = .ok base)
    (h5 : copyPrimaryGo psp (pjoin (pjoin dataset_root subl) sesl) base fs1 file_map = .ok fs2)
    (h6 : copySeqStep fs2 psp (pjoin (pjoin dataset_root subl) sesl) base = .ok fs3) :
    pipeline si sc psp fs =
      (match writeMetadataStep fs3 (pjoin (pjoin dataset_root subl) sesl) si sc with
       | .error fs4 => .error fs4
       | .ok fs4 => .ok (pjoin (pjoin dataset_root subl) sesl, fs4)) := by
  rw [pipeline_eq_of_labels si sc psp fs subl sesl fs1 h1 h2 h3]
  split
  · rename_i e heq
    rw [h4] at heq; cases heq
  · rename_i base2 heq
    rw [h4] at heq
    injection heq with heq2
    subst heq2
    split
    · rename_i fsx heq
      rw [h5] at heq; cases heq
    · rename_i fs2x heq
      rw [h5] at heq
      injection heq with heq2
      subst heq2
      split
      · rename_i fsx heq
        rw [h6] at heq; cases heq
      · rename_i fs3x heq
        rw [h6] at heq
        injection heq with heq2
        subst heq2
        rfl

/-! ## Claim theorems -/

/-- C1: for every `session_info`, `scan_info` with a parsable `name_string`
and non-empty `fileName` stem, a successful call to `createMirroredDataset`
returns exactly the path the spec describes: the fixed dataset root joined
with `sub-` + `subject_id` with spaces replaced by underscores (or
`UnknownSubject` when absent) and `ses-` + the compact timestamp —
`spec_sessionPath` is the spec-side formula. -/
theorem returned_path_matches_spec (si sc : PyDict) (psp : String) (fs : FS) (p : String)
    (h : (createMirroredDataset si sc psp fs).ret = some p) :
    spec_sessionPath si sc = some p := by
  cases hp : pipeline si sc psp fs with
  | error fs1 =>
    have hcr : createMirroredDataset si sc psp fs = ⟨none, fs1⟩ := by
      unfold createMirroredDataset; rw [hp]
    rw [hcr] at h
    exact Option.noConfusion h
  | ok pr =>
    obtain ⟨p0, fs0⟩ := pr
    have hcr : createMirroredDataset si sc psp fs = ⟨some p0, fs0⟩ := by
      unfold createMirroredDataset; rw [hp]
    rw [hcr] at h
    have hpp : p0 = p := by
      have h2 : (some p0 : Option String) = some p := h
      injection h2
    subst hpp
    obtain ⟨subl, sesl, fs1, base, fs2, fs3, h1, h2, hpz, _, _, _, _, _⟩ :=
      pipeline_ok_inv si sc psp fs p0 fs0 hp
    subst hpz
    obtain ⟨ts, dt, hts, hdt, hlbl⟩ := sessionLabelStep_ok_inv sc sesl h2
    subst hlbl
    rcases subjectLabelStep_ok_inv si subl h1 with ⟨hget, hsub⟩ | ⟨s, hget, hsub⟩
    · subst hsub
      have hsubl : spec_subjectLabel si = some "UnknownSubject" := by
        unfold spec_subjectLabel; rw [hget]
      unfold spec_sessionPath
      simp only [hsubl, hts, hdt,
        show replaceSpaces "UnknownSubject" = "UnknownSubject" from by decide]
    · subst hsub
      have hsubl : spec_subjectLabel si = some (replaceSpaces s) := by
        unfold spec_subjectLabel; rw [hget]
      unfold spec_sessionPath
      simp only [hsubl, hts, hdt]

/-- C2: the top-level `try/except` converts every internal raise into a
`None` return and never propagates; when no step raises, the call returns
the session directory path computed by the steps. -/
theorem createMirroredDataset_catches_all (si sc : PyDict) (psp : String) (fs : FS) :
    ((createMirroredDataset si sc psp fs).ret = none
        ↔ ∃ fs1, pipeline si sc psp fs = .error fs1)
  ∧ (∀ p fs1, pipeline si sc psp fs = .ok (p, fs1) →
        createMirroredDataset si sc psp fs = ⟨some p, fs1⟩) := by
  cases hp : pipeline si sc psp fs with
  | error fs1 =>
    have hcr : createMirroredDataset si sc psp fs = ⟨none, fs1⟩ := by
      unfold createMirroredDataset; rw [hp]
    constructor
    · constructor
      · intro _
        exact ⟨fs1, rfl⟩
      · intro _
        rw [hcr]
    · intro p fs2 hcontra
      cases hcontra
  | ok pr =>
    obtain ⟨p0, fs0⟩ := pr
    have hcr : createMirroredDataset si sc psp fs = ⟨some p0, fs0⟩ := by
      unfold createMirroredDataset; rw [hp]
    constructor
    · constructor
      · intro h
        rw [hcr] at h
        exact Option.noConfusion h
      · rintro ⟨fs1, hcontra⟩
        cases hcontra
    · intro p fs1 h
      simp only [Except.ok.injEq, Prod.mk.injEq] at h
      rw [hcr, h.1, h.2]

/-- C3: a missing or empty `name_string`, or a missing `fileName` or one
whose extension-stripped stem is empty, makes `createMirroredDataset`
return the sentinel `None` instead of a path. -/
theorem missing_fields_give_none (si sc : PyDict) (psp : String) (fs : FS)
    (h : pyGet sc "name_string" = none ∨ pyGet sc "name_string" = some (.pstr "")
       ∨ pyGet sc "fileName" = none
       ∨ ∃ s, pyGet sc "fileName" = some (.pstr s) ∧ (splitext s).1 = "") :
    (createMirroredDataset si sc psp fs).ret = none := by
  cases hp : pipeline si sc psp fs with
  | error fs1 =>
    have hcr : createMirroredDataset si sc psp fs = ⟨none, fs1⟩ := by
      unfold createMirroredDataset; rw [hp]
    rw [hcr]
  | ok pr =>
    obtain ⟨p0, fs0⟩ := pr
    exfalso
    obtain ⟨subl, sesl, fs1, base, fs2, fs3, h1, h2, hpz, h3, h4, h5, h6, h7⟩ :=
      pipeline_ok_inv si sc psp fs p0 fs0 hp
    rcases h with hn | hn | hn | ⟨s, hs, hstem⟩
    · obtain ⟨ts, dt, hts, hdt, _⟩ := sessionLabelStep_ok_inv sc sesl h2
      rw [hn] at hts
      cases hts
    · obtain ⟨ts, dt, hts, hdt, _⟩ := sessionLabelStep_ok_inv sc sesl h2
      rw [hn] at hts
      simp only [Option.some.injEq, PyValue.pstr.injEq] at hts
      rw [← hts] at hdt
      rw [show strptime6 "" = none from by decide] at hdt
      cases hdt
    · rw [baseFilenameStep_error_of sc (Or.inl hn)] at h4
      cases h4
    · rw [baseFilenameStep_error_of sc (Or.inr ⟨s, hs, hstem⟩)] at h4
      cases h4

/-- C4: a `name_string` parsing under `%Y.%m.%d.%H.%M.%S.%f` produces the
session label `ses-` followed by the instant reformatted as
`%Y%m%dT%H%M%S` (fractional seconds dropped); an unparsable `name_string`
makes the whole call return the sentinel `None`. -/
theorem timestamp_transform (si sc : PyDict) (psp : String) (fs : FS) (ts : String)
    (h : pyGet sc "name_string" = some (.pstr ts)) :
    (∀ dt, strptime6 ts = some dt →
        sessionLabelStep sc = .ok ("ses-" ++ strftimeCompact dt))
  ∧ (strptime6 ts = none → (createMirroredDataset si sc psp fs).ret = none) := by
  constructor
  · intro dt hdt
    have hts : ts ≠ "" := by
      intro he
      subst he
      rw [show strptime6 "" = none from by decide] at hdt
      cases hdt
    rw [sessionLabelStep_eval sc ts h hts, hdt]
  · intro hnone
    cases hp : pipeline si sc psp fs with
    | error fs1 =>
      have hcr : createMirroredDataset si sc psp fs = ⟨none, fs1⟩ := by
        unfold createMirroredDataset; rw [hp]
      rw [hcr]
    | ok pr =>
      obtain ⟨p0, fs0⟩ := pr
      exfalso
      obtain ⟨subl, sesl, fs1, base, fs2, fs3, h1, h2, _, _, _, _, _, _⟩ :=
        pipeline_ok_inv si sc psp fs p0 fs0 hp
      obtain ⟨ts2, dt, hts2, hdt, _⟩ := sessionLabelStep_ok_inv sc sesl h2
      rw [h] at hts2
      simp only [Option.some.injEq, PyValue.pstr.injEq] at hts2
      subst hts2
      rw [hnone] at hdt
      cases hdt

/-- C5: on success the written metadata record has exactly the two
top-level fields of the source: `session_info` embedded unmodified, and
`scan_parameters` with the same keys as `scan_info` (in order) and every
value coerced to its string representation. -/
theorem metadata_two_fields (si sc : PyDict) (psp : String) (fs : FS) (p : String)
    (h : (createMirroredDataset si sc psp fs).ret = some p) :
    fileContent (createMirroredDataset si sc psp fs).fs (pjoin p "metadata.json")
      = some (.metadataFile si (scanParams sc))
  ∧ (scanParams sc).map (fun kv => kv.1) = sc.map (fun kv => kv.1)
  ∧ (∀ kv ∈ sc, (kv.1, pyStr kv.2) ∈ scanParams sc) := by
  cases hp : pipeline si sc psp fs with
  | error fs1 =>
    have hcr : createMirroredDataset si sc psp fs = ⟨none, fs1⟩ := by
      unfold createMirroredDataset; rw [hp]
    rw [hcr] at h
    exact Option.noConfusion h
  | ok pr =>
    obtain ⟨p0, fs0⟩ := pr
    have hcr : createMirroredDataset si sc psp fs = ⟨some p0, fs0⟩ := by
      unfold createMirroredDataset; rw [hp]
    rw [hcr] at h
    have hpp : p0 = p := by
      have h2 : (some p0 : Option String) = some p := h
      injection h2
    subst hpp
    rw [hcr]
    obtain ⟨subl, sesl, fs1, base, fs2, fs3, h1, h2, hpz, h3, h4, h5, h6, h7⟩ :=
      pipeline_ok_inv si sc psp fs p0 fs0 hp
    obtain ⟨hdirs, hfs0⟩ := writeMetadataStep_ok_inv fs3 fs0 p0 si sc h7
    subst hfs0
    refine ⟨?_, ?_, ?_⟩
    · exact fileContent_setFile_self
        ⟨[], setFile fs3.files (pjoin p0 "metadata.json") (.blob "")⟩ fs3.dirs
        (pjoin p0 "metadata.json") (.metadataFile si (scanParams sc))
    · unfold scanParams
      rw [List.map_map]
      rfl
    · intro kv hkv
      unfold scanParams
      exact List.mem_map.2 ⟨kv, hkv, rfl⟩

/-- C6: for each of the four fixed extension mappings, the primary-copy
stage copies `primary_save_path/<src_subdir>/<base><ext>` to
`<dsp>/<dest_subdir>/<base><ext>` exactly when the source file exists
(same content afterwards), a missing source leaves no destination file,
and no combination of present and missing sources makes the stage fail
(the four destination paths are pairwise distinct by their extensions'
last characters, so the copies cannot interfere). -/
theorem primary_copy_selective (psp dsp base : String) (fs : FS)
    (hsep : ∀ m ∈ file_map,
        isDir fs (primarySrc psp base m) = false
      ∧ isDir fs (primaryDst dsp base m) = false
      ∧ primaryDst dsp base m ≠ primarySrc psp base m
      ∧ isFile fs (primaryDst dsp base m) = false) :
    ∃ fs1, copyPrimaryGo psp dsp base fs file_map = .ok fs1
      ∧ ∀ m ∈ file_map,
          isFile fs1 (primaryDst dsp base m) = isFile fs (primarySrc psp base m)
        ∧ (isFile fs (primarySrc psp base m) = true →
            fileContent fs1 (primaryDst dsp base m) = fileContent fs (primarySrc psp base m)) := by
  obtain ⟨fs1, hok, hmain, _⟩ := copyPrimaryGo_spec psp dsp base file_map fs
    (fun m hm => ⟨(hsep m hm).1, (hsep m hm).2.1, (hsep m hm).2.2.1⟩)
    (file_map_pairwise psp dsp base)
  refine ⟨fs1, hok, ?_⟩
  intro m hm
  obtain ⟨hI, hc⟩ := hmain m hm
  refine ⟨?_, hc⟩
  rw [hI, (hsep m hm).2.2.2, Bool.or_false]

/-- C7: scanning the `seq` subdirectory copies exactly the listed entries
whose name starts with the base identifier and ends with `.seq` into the
destination `seq` subdirectory; an absent `seq` subdirectory (and likewise
zero matches) is not a failure. -/
theorem seq_copy_exact (psp dsp base : String) (fs : FS)
    (hsep : ∀ n ∈ listdir fs (pjoin psp "seq"), matchSeq base n = true →
        isDir fs (pjoin (pjoin psp "seq") n) = false
      ∧ isDir fs (pjoin (pjoin dsp "seq") n) = false
      ∧ isFile fs (pjoin (pjoin dsp "seq") n) = false
      ∧ (∀ n2 ∈ listdir fs (pjoin psp "seq"),
          pjoin (pjoin dsp "seq") n ≠ pjoin (pjoin psp "seq") n2
        ∧ (matchSeq base n2 = true → n ≠ n2 →
            pjoin (pjoin dsp "seq") n ≠ pjoin (pjoin dsp "seq") n2))) :
    (pathExists fs (pjoin psp "seq") = false → copySeqStep fs psp dsp base = .ok fs)
  ∧ (isDir fs (pjoin psp "seq") = true →
      ∃ fs1, copySeqStep fs psp dsp base = .ok fs1
        ∧ (∀ n ∈ listdir fs (pjoin psp "seq"), matchSeq base n = true →
             isFile fs1 (pjoin (pjoin dsp "seq") n) = isFile fs (pjoin (pjoin psp "seq") n)
           ∧ (isFile fs (pjoin (pjoin psp "seq") n) = true →
               fileContent fs1 (pjoin (pjoin dsp "seq") n)
                 = fileContent fs (pjoin (pjoin psp "seq") n)))
        ∧ (∀ q, (∀ n ∈ listdir fs (pjoin psp "seq"), matchSeq base n = true →
               q ≠ pjoin (pjoin dsp "seq") n) →
             fileContent fs1 q = fileContent fs q)) := by
  constructor
  · intro hne
    unfold copySeqStep
    rw [hne]
    rfl
  · intro hdir
    have hex : pathExists fs (pjoin psp "seq") = true := by
      unfold pathExists
      rw [hdir]
      simp
    have hnd : (listdir fs (pjoin psp "seq")).Nodup := by
      unfold listdir
      exact List.nodup_dedup _
    have hpw : (listdir fs (pjoin psp "seq")).Pairwise (fun n n2 =>
        matchSeq base n = true → matchSeq base n2 = true →
        pjoin (pjoin dsp "seq") n ≠ pjoin (pjoin dsp "seq") n2
          ∧ pjoin (pjoin dsp "seq") n ≠ pjoin (pjoin psp "seq") n2
          ∧ pjoin (pjoin dsp "seq") n2 ≠ pjoin (pjoin psp "seq") n) := by
      apply hnd.pairwise_of_forall_ne
      intro n hn n2 hn2 hne12 hm hm2
      exact ⟨((hsep n hn hm).2.2.2 n2 hn2).2 hm2 hne12,
             ((hsep n hn hm).2.2.2 n2 hn2).1,
             ((hsep n2 hn2 hm2).2.2.2 n hn).1⟩
    obtain ⟨fs1, hok, hmain, hrest⟩ := copySeqGo_spec (pjoin psp "seq") (pjoin dsp "seq") base
      (listdir fs (pjoin psp "seq")) fs
      (fun n hn hm => ⟨(hsep n hn hm).1, (hsep n hn hm).2.1, ((hsep n hn hm).2.2.2 n hn).1⟩)
      hpw
    refine ⟨fs1, ?_, ?_, ?_⟩
    · unfold copySeqStep
      rw [hex, hdir]
      exact hok
    · intro n hn hm
      obtain ⟨hI, hc⟩ := hmain n hn hm
      refine ⟨?_, hc⟩
      rw [hI, (hsep n hn hm).2.2.1, Bool.or_false]
    · intro q hq
      exact (hrest q hq).1

/-- C8: after a successful call, every directory the scaffolding step
creates is already present, so running the directory-creation step of a
second identical call (whose derived session path is the returned path)
on the resulting filesystem succeeds and returns the filesystem unchanged:
no failure and no duplicates. -/
theorem scaffolding_idempotent (si sc : PyDict) (psp : String) (fs : FS) (p : String)
    (h : (createMirroredDataset si sc psp fs).ret = some p)
    (hnf : ∀ sub ∈ subfolders, ∀ q ∈ pathPrefixes (pjoin p sub),
        isFile (createMirroredDataset si sc psp fs).fs q = false) :
    scaffoldStep (createMirroredDataset si sc psp fs).fs p
      = .ok (createMirroredDataset si sc psp fs).fs := by
  cases hp : pipeline si sc psp fs with
  | error fs1 =>
    have hcr : createMirroredDataset si sc psp fs = ⟨none, fs1⟩ := by
      unfold createMirroredDataset; rw [hp]
    rw [hcr] at h
    exact Option.noConfusion h
  | ok pr =>
    obtain ⟨p0, fs0⟩ := pr
    have hcr : createMirroredDataset si sc psp fs = ⟨some p0, fs0⟩ := by
      unfold createMirroredDataset; rw [hp]
    rw [hcr] at h hnf ⊢
    have hpp : p0 = p := by
      have h2 : (some p0 : Option String) = some p := h
      injection h2
    subst hpp
    show scaffoldStep fs0 p0 = .ok fs0
    obtain ⟨subl, sesl, fs1, base, fs2, fs3, h1, h2, hpz, h3, h4, h5, h6, h7⟩ :=
      pipeline_ok_inv si sc psp fs p0 fs0 hp
    have h3m : makedirsList fs (subfolders.map (fun sub => pjoin p0 sub)) = .ok fs1 := h3
    have hinv := makedirsList_ok_inv (subfolders.map (fun sub => pjoin p0 sub)) fs fs1 h3m
    have hd5 := copyPrimaryGo_ok_dirs psp p0 base file_map fs1 fs2 h5
    have hd6 := copySeqStep_ok_dirs fs2 fs3 psp p0 base h6
    have hd7 := (writeMetadataStep_ok_inv fs3 fs0 p0 si sc h7).1
    have hdirs : fs0.dirs = fs1.dirs := by rw [hd7, hd6, hd5]
    unfold scaffoldStep
    apply makedirsList_noop
    · intro pp hpp2 q hq
      rw [hdirs]
      exact hinv.2.2 pp hpp2 q hq
    · intro pp hpp2 q hq
      obtain ⟨sub, hsub, hppe⟩ := List.mem_map.1 hpp2
      subst hppe
      exact hnf sub hsub q hq

/-- C9: a missing, empty or unparsable `name_string` fails before any
directory is created — the call returns the sentinel with the filesystem
exactly as it was — whereas a missing `fileName` fails only after the
directory scaffolding, returning the sentinel with the scaffolded
filesystem. -/
theorem timestamp_failure_before_scaffolding (si sc : PyDict) (psp : String) (fs : FS) :
    ((pyGet sc "name_string" = none ∨ pyGet sc "name_string" = some (.pstr "")
       ∨ (∃ ts, pyGet sc "name_string" = some (.pstr ts) ∧ strptime6 ts = none)) →
      createMirroredDataset si sc psp fs = ⟨none, fs⟩)
  ∧ (∀ subl sesl fs1, subjectLabelStep si = .ok subl → sessionLabelStep sc = .ok sesl →
      scaffoldStep fs (pjoin (pjoin dataset_root subl) sesl) = .ok fs1 →
      pyGet sc "fileName" = none →
      createMirroredDataset si sc psp fs = ⟨none, fs1⟩) := by
  constructor
  · intro h
    have hses : sessionLabelStep sc = .error () := by
      rcases h with hn | hn | ⟨ts, hn, hts⟩
      · unfold sessionLabelStep
        rw [hn]
        rfl
      · unfold sessionLabelStep
        rw [hn]
        rfl
      · by_cases he : ts = ""
        · subst he
          unfold sessionLabelStep
          rw [hn]
          rfl
        · rw [sessionLabelStep_eval sc ts hn he, hts]
    have hpe : pipeline si sc psp fs = .error fs := by
      unfold pipeline
      split
      · rfl
      · rename_i subl heq
        rw [hses]
    unfold createMirroredDataset
    rw [hpe]
  · intro subl sesl fs1 h1 h2 h3 hfn
    have hbase : baseFilenameStep sc = .error () :=
      baseFilenameStep_error_of sc (Or.inl hfn)
    have hpe := pipeline_eq_of_labels si sc psp fs subl sesl fs1 h1 h2 h3
    rw [hbase] at hpe
    unfold createMirroredDataset
    rw [hpe]

/-- C10: the string coercion shields `scan_info` — with every
`session_info` value serializable the metadata write succeeds for *any*
`scan_info` — while a single non-serializable `session_info` value makes a
call that reached the metadata stage return the sentinel, with the
scaffolded directories and all copied files still in place (only the
truncated `metadata.json` path differs). -/
theorem coercion_protects_scan_info (si sc : PyDict) (psp : String) (fs : FS) :
    ((∀ kv ∈ si, pyJsonSerializable kv.2 = true) →
      ∀ (sc2 : PyDict) (dsp : String) (fsx : FS),
        isDir fsx (pjoin dsp "metadata.json") = false →
        ∃ fsy, writeMetadataStep fsx dsp si sc2 = .ok fsy)
  ∧ (∀ subl sesl fs1 base fs2 fs3,
      subjectLabelStep si = .ok subl → sessionLabelStep sc = .ok sesl →
      scaffoldStep fs (pjoin (pjoin dataset_root subl) sesl) = .ok fs1 →
      baseFilenameStep sc = .ok base →
      copyPrimaryGo psp (pjoin (pjoin dataset_root subl) sesl) base fs1 file_map = .ok fs2 →
      copySeqStep fs2 psp (pjoin (pjoin dataset_root subl) sesl) base = .ok fs3 →
      (∃ kv ∈ si, pyJsonSerializable kv.2 = false) →
      isDir fs3 (pjoin (pjoin (pjoin dataset_root subl) sesl) "metadata.json") = false →
      (createMirroredDataset si sc psp fs).ret = none
      ∧ (createMirroredDataset si sc psp fs).fs.dirs = fs3.dirs
      ∧ (∀ q, q ≠ pjoin (pjoin (pjoin dataset_root subl) sesl) "metadata.json" →
          fileContent (createMirroredDataset si sc psp fs).fs q = fileContent fs3 q)) := by
  constructor
  · intro hall sc2 dsp fsx hdir
    have hAll : (si.all fun kv => pyJsonSerializable kv.2) = true := by
      rw [List.all_eq_true]
      exact hall
    refine ⟨⟨fsx.dirs, setFile (setFile fsx.files (pjoin dsp "metadata.json") (.blob ""))
        (pjoin dsp "metadata.json") (.metadataFile si (scanParams sc2))⟩, ?_⟩
    unfold writeMetadataStep
    rw [if_neg (by rw [hdir]; exact Bool.false_ne_true), if_pos hAll]
  · intro subl sesl fs1 base fs2 fs3 h1 h2 h3 h4 h5 h6 hbad hdir
    have hAll : (si.all fun kv => pyJsonSerializable kv.2) = false := by
      rw [List.all_eq_false]
      obtain ⟨kv, hkv, hbadv⟩ := hbad
      exact ⟨kv, hkv, by simp [hbadv]⟩
    have hw : writeMetadataStep fs3 (pjoin (pjoin dataset_root subl) sesl) si sc
        = .error ⟨fs3.dirs, setFile fs3.files
            (pjoin (pjoin (pjoin dataset_root subl) sesl) "metadata.json") (.blob "")⟩ := by
      unfold writeMetadataStep
      rw [if_neg (by rw [hdir]; exact Bool.false_ne_true),
          if_neg (by rw [hAll]; exact Bool.false_ne_true)]
    have hpe := pipeline_eq_of_copies si sc psp fs subl sesl fs1 base fs2 fs3 h1 h2 h3 h4 h5 h6
    rw [hw] at hpe
    have hcr : createMirroredDataset si sc psp fs
        = ⟨none, ⟨fs3.dirs, setFile fs3.files
            (pjoin (pjoin (pjoin dataset_root subl) sesl) "metadata.json") (.blob "")⟩⟩ := by
      unfold createMirroredDataset
      rw [hpe]
    rw [hcr]
    refine ⟨rfl, rfl, ?_⟩
    intro q hq
    exact fileContent_setFile_ne fs3 fs3.dirs _ q _ hq

/-! ## Witnesses -/

set_option maxRecDepth 40000 in
/-- Witness for C1 at concrete inputs. -/
theorem returned_path_matches_spec_witness :
    spec_sessionPath wSession wScan = some wSessionPath :=
  returned_path_matches_spec wSession wScan "/tmp/acq" wAcqFS wSessionPath (by decide)

set_option maxRecDepth 40000 in
/-- Witness for C2: a raising run returns `None`; a clean run returns the
session path and the populated filesystem. -/
theorem createMirroredDataset_catches_all_witness :
    (createMirroredDataset wSession [] "/tmp/acq" wEmptyFS).ret = none
  ∧ createMirroredDataset wSession wScan "/tmp/acq" wEmptyFS
      = ⟨some wSessionPath,
         ⟨wScaffoldDirs,
          [(pjoin wSessionPath "metadata.json", .metadataFile wSession (scanParams wScan))]⟩⟩ :=
  ⟨(createMirroredDataset_catches_all wSession [] "/tmp/acq" wEmptyFS).1.mpr
      ⟨wEmptyFS, by decide⟩,
   (createMirroredDataset_catches_all wSession wScan "/tmp/acq" wEmptyFS).2 wSessionPath
      ⟨wScaffoldDirs,
       [(pjoin wSessionPath "metadata.json", .metadataFile wSession (scanParams wScan))]⟩
      (by decide)⟩

set_option maxRecDepth 40000 in
/-- Witness for C3: omitting `fileName` yields the sentinel. -/
theorem missing_fields_give_none_witness :
    (createMirroredDataset wSession [("name_string", PyValue.pstr "2024.03.15.09.30.00.123456")]
        "/tmp/acq" wEmptyFS).ret = none :=
  missing_fields_give_none wSession
    [("name_string", PyValue.pstr "2024.03.15.09.30.00.123456")] "/tmp/acq" wEmptyFS
    (Or.inr (Or.inr (Or.inl (by decide))))

set_option maxRecDepth 40000 in
/-- Witness for C4: the spec's example timestamp, and an unparsable one. -/
theorem timestamp_transform_witness :
    sessionLabelStep [("name_string", PyValue.pstr "2024.03.15.09.30.00.123456")]
      = .ok "ses-20240315T093000"
  ∧ (createMirroredDataset wSession [("name_string", PyValue.pstr "2024-03-15")]
      "/tmp/acq" wEmptyFS).ret = none := by
  constructor
  · have h1 := (timestamp_transform wSession
      [("name_string", PyValue.pstr "2024.03.15.09.30.00.123456")] "/tmp/acq" wEmptyFS
      "2024.03.15.09.30.00.123456" (by decide)).1 ⟨2024, 3, 15, 9, 30, 0, 123456⟩ (by decide)
    rw [show ("ses-" ++ strftimeCompact ⟨2024, 3, 15, 9, 30, 0, 123456⟩) = "ses-20240315T093000"
      from by decide] at h1
    exact h1
  · exact (timestamp_transform wSession [("name_string", PyValue.pstr "2024-03-15")]
      "/tmp/acq" wEmptyFS "2024-03-15" (by decide)).2 (by decide)

set_option maxRecDepth 40000 in
/-- Witness for C5 at concrete inputs. -/
theorem metadata_two_fields_witness :
    fileContent (createMirroredDataset wSession wScan "/tmp/acq" wAcqFS).fs
        (pjoin wSessionPath "metadata.json")
      = some (.metadataFile wSession (scanParams wScan))
  ∧ (scanParams wScan).map (fun kv => kv.1) = wScan.map (fun kv => kv.1) :=
  ⟨(metadata_two_fields wSession wScan "/tmp/acq" wAcqFS wSessionPath (by decide)).1,
   (metadata_two_fields wSession wScan "/tmp/acq" wAcqFS wSessionPath (by decide)).2.1⟩

set_option maxRecDepth 40000 in
/-- Witness for C6: with only `.mat` and `.csv` sources present, those two
are copied and the absent `.dcm` produces no destination file. -/
theorem primary_copy_selective_witness :
    isFile wCopyOut (primaryDst "/data/ses" "X1" (".mat", "mat", "mat")) = true
  ∧ isFile wCopyOut (primaryDst "/data/ses" "X1" (".dcm", "dcm", "dcm")) = false := by
  obtain ⟨fs1, hok, hmain⟩ :=
    primary_copy_selective "/tmp/acq" "/data/ses" "X1" wCopyFS (by decide)
  have hfs : fs1 = wCopyOut := by
    have h2 : copyPrimaryGo "/tmp/acq" "/data/ses" "X1" wCopyFS file_map = .ok wCopyOut := by
      decide
    rw [hok] at h2
    injection h2
  subst hfs
  constructor
  · rw [(hmain (".mat", "mat", "mat") (by decide)).1]
    decide
  · rw [(hmain (".dcm", "dcm", "dcm") (by decide)).1]
    decide

set_option maxRecDepth 40000 in
/-- Witness for C7: the spec's multi-match example — `X1.seq` and
`X1_cal.seq` are copied, `Y2.seq` is not, and an absent `seq` directory is
no failure. -/
theorem seq_copy_exact_witness :
    isFile wSeqOut (pjoin (pjoin "/data/ses" "seq") "X1.seq") = true
  ∧ isFile wSeqOut (pjoin (pjoin "/data/ses" "seq") "X1_cal.seq") = true
  ∧ isFile wSeqOut (pjoin (pjoin "/data/ses" "seq") "Y2.seq") = false
  ∧ copySeqStep wCopyFS "/tmp/acq" "/data/ses" "X1" = .ok wCopyFS := by
  obtain ⟨fs1, hok, hmain, hrest⟩ :=
    (seq_copy_exact "/tmp/acq" "/data/ses" "X1" wSeqFS (by decide)).2 (by decide)
  have hfs : fs1 = wSeqOut := by
    have h2 : copySeqStep wSeqFS "/tmp/acq" "/data/ses" "X1" = .ok wSeqOut := by decide
    rw [hok] at h2
    injection h2
  subst hfs
  refine ⟨?_, ?_, ?_, ?_⟩
  · rw [(hmain "X1.seq" (by decide) (by decide)).1]
    decide
  · rw [(hmain "X1_cal.seq" (by decide) (by decide)).1]
    decide
  · have h3 := (hrest (pjoin (pjoin "/data/ses" "seq") "Y2.seq") (by decide))
    rw [isFile_eq_isSome_fileContent, h3]
    decide
  · exact (seq_copy_exact "/tmp/acq" "/data/ses" "X1" wCopyFS (by decide)).1 (by decide)

set_option maxRecDepth 100000 in
/-- Witness for C8: re-running the scaffolding on the filesystem of a
finished call succeeds and changes nothing. -/
theorem scaffolding_idempotent_witness :
    scaffoldStep (createMirroredDataset wSession wScan "/tmp/acq" wAcqFS).fs wSessionPath
      = .ok (createMirroredDataset wSession wScan "/tmp/acq" wAcqFS).fs :=
  scaffolding_idempotent wSession wScan "/tmp/acq" wAcqFS wSessionPath (by decide) (by decide)

set_option maxRecDepth 40000 in
/-- Witness for C9: an unparsable timestamp leaves the filesystem
untouched; a missing `fileName` leaves the scaffolding behind. -/
theorem timestamp_failure_before_scaffolding_witness :
    createMirroredDataset wSession [("name_string", PyValue.pstr "garbage")] "/tmp/acq" wAcqFS
      = ⟨none, wAcqFS⟩
  ∧ createMirroredDataset wSession [("name_string", PyValue.pstr "2024.03.15.09.30.00.123456")]
      "/tmp/acq" wEmptyFS = ⟨none, ⟨wScaffoldDirs, []⟩⟩ := by
  constructor
  · exact (timestamp_failure_before_scaffolding wSession
      [("name_string", PyValue.pstr "garbage")] "/tmp/acq" wAcqFS).1
      (Or.inr (Or.inr ⟨"garbage", by decide, by decide⟩))
  · exact (timestamp_failure_before_scaffolding wSession
      [("name_string", PyValue.pstr "2024.03.15.09.30.00.123456")] "/tmp/acq" wEmptyFS).2
      "sub-Jane_Doe" "ses-20240315T093000" ⟨wScaffoldDirs, []⟩
      (by decide) (by decide) (by decide) (by decide)

set_option maxRecDepth 40000 in
/-- Witness for C10: a non-serializable `session_info` value makes the call
return `None` while the scaffolded directories remain. -/
theorem coercion_protects_scan_info_witness :
    (createMirroredDataset wBadSession wScan "/tmp/acq" wEmptyFS).ret = none
  ∧ (createMirroredDataset wBadSession wScan "/tmp/acq" wEmptyFS).fs.dirs = wScaffoldDirs := by
  have happ := (coercion_protects_scan_info wBadSession wScan "/tmp/acq" wEmptyFS).2
    "sub-Jane_Doe" "ses-20240315T093000" ⟨wScaffoldDirs, []⟩ "X1"
    ⟨wScaffoldDirs, []⟩ ⟨wScaffoldDirs, []⟩
    (by decide) (by decide) (by decide) (by decide) (by decide) (by decide)
    ⟨("array", PyValue.pobj "[1 2 3]"), by decide, rfl⟩ (by decide)
  exact ⟨happ.1, happ.2.1⟩
